import Mathlib

/-!
Shallow embedding of `src/SRGAN/train.py` from the Intelligent-RS repository.

The script drives the SRGAN adversarial training loop: per batch it performs a
generator update (perceptual loss = VGG-feature MSE content loss plus
`beta`-weighted adversarial BCE-with-logits loss against all-ones targets)
followed by a discriminator update (BCE of the detached generated images
against zeros plus BCE of the real images against ones), decays both
optimizers' learning rates once at epoch `int(epochs / 2)`, tracks running
loss averages, and saves a rolling checkpoint dictionary at the end of every
epoch.

Modelling conventions:
* Scalars are rationals; tensors are flattened lists of rationals.
* Autograd is modelled by tagging every tensor with the list of parameter
  leaves its computation graph reaches (`GTensor.deps`); `detach` erases the
  tags.  A backward pass adds an abstract per-leaf contribution to the
  gradient accumulator of exactly the reachable leaves, mirroring PyTorch's
  accumulate-into-`.grad` semantics.
* The network architectures (`srgan_model.py`), the pointwise
  `BCEWithLogits` function and the Adam update rule are external
  collaborators, kept abstract as fields of `Nets` and `Dyn`.
* The checkpoint dictionary is modelled as a Python dict: an ordered
  association list with later-duplicate-wins insertion, so the duplicated
  `'optimizer_g'` key of `torch.save` (train.py lines 200-206) is reproduced
  exactly.
-/

namespace SRGAN

/-- Identifier of the three parameterised networks of `train.py`:
the generator, the discriminator and the truncated VGG19 feature extractor. -/
inductive NetId
  | gen
  | disc
  | vgg
  deriving DecidableEq, Repr

/-- A parameter leaf of the autograd graph: which network it belongs to and
its index in that network's flattened parameter vector. -/
structure PId where
  net : NetId
  idx : Nat
  deriving DecidableEq, Repr

/-- All parameter leaves of network `w` when it has `n` parameters. -/
def pids (w : NetId) (n : Nat) : List PId :=
  (List.range n).map (fun i => ⟨w, i⟩)

/-- A tensor of the training loop: its flattened data together with the
parameter leaves its computation graph reaches with gradient tracking. -/
structure GTensor where
  data : List ℚ
  deps : List PId
  deriving Repr

/-- Tensor.detach(): same data, severed from the computation graph. -/
def detach (t : GTensor) : GTensor := ⟨t.data, []⟩

/-- torch.ones_like: an all-ones tensor of the same shape, not tracked. -/
def onesLike (t : GTensor) : GTensor := ⟨List.replicate t.data.length 1, []⟩

/-- torch.zeros_like: an all-zeros tensor of the same shape, not tracked. -/
def zerosLike (t : GTensor) : GTensor := ⟨List.replicate t.data.length 0, []⟩

/-- External collaborators of the training loop.  `genF`, `discF` and `vggF`
are the forward functions of the Generator, Discriminator and TruncatedVGG19
modules of `srgan_model.py` (out of scope per the spec), as functions of the
network's flattened parameter vector and the input data.  `conv` is modelled
from the spec: `convert_image` lives in `utils.py`, absent from the sources;
the spec describes it as the normalization transform applied to the generated
images so that they are comparable with the real images in feature space.
`bce` is the pointwise binary-cross-entropy-with-logits function of
`nn.BCEWithLogitsLoss` applied to one (logit, target) pair; the loss reduces
by the mean, which is taken explicitly in `bceWithLogitsMean`. -/
structure Nets where
  genF : List ℚ → List ℚ → List ℚ
  discF : List ℚ → List ℚ → List ℚ
  vggF : List ℚ → List ℚ → List ℚ
  conv : List ℚ → List ℚ
  bce : ℚ → ℚ → ℚ

/-- Generator forward: output data from `genF`, reaching every generator
parameter plus whatever the input reaches. -/
def genForward (N : Nets) (p : List ℚ) (x : GTensor) : GTensor :=
  ⟨N.genF p x.data, pids .gen p.length ++ x.deps⟩

/-- Discriminator forward. -/
def discForward (N : Nets) (p : List ℚ) (x : GTensor) : GTensor :=
  ⟨N.discF p x.data, pids .disc p.length ++ x.deps⟩

/-- TruncatedVGG19 forward. -/
def vggForward (N : Nets) (p : List ℚ) (x : GTensor) : GTensor :=
  ⟨N.vggF p x.data, pids .vgg p.length ++ x.deps⟩

/-- convert_image (train.py lines 137-139): a data-level transform, graph
membership unchanged. -/
def convertImage (N : Nets) (t : GTensor) : GTensor := ⟨N.conv t.data, t.deps⟩

/-- nn.MSELoss (mean reduction) on flattened data. -/
def mseVal (xs ys : List ℚ) : ℚ :=
  (List.zipWith (fun a b => (a - b) ^ 2) xs ys).sum / (xs.length : ℚ)

/-- MSE loss tensor: scalar value, reaching both operands' leaves. -/
def mseLossT (a b : GTensor) : GTensor := ⟨[mseVal a.data b.data], a.deps ++ b.deps⟩

/-- nn.BCEWithLogitsLoss (mean reduction) on flattened logits and targets. -/
def bceWithLogitsMean (N : Nets) (xs ts : List ℚ) : ℚ :=
  (List.zipWith N.bce xs ts).sum / (xs.length : ℚ)

/-- BCE-with-logits loss tensor. -/
def bceLossT (N : Nets) (logits target : GTensor) : GTensor :=
  ⟨[bceWithLogitsMean N logits.data target.data], logits.deps ++ target.deps⟩

/-- Elementwise sum of two (scalar) loss tensors. -/
def addT (a b : GTensor) : GTensor :=
  ⟨List.zipWith (· + ·) a.data b.data, a.deps ++ b.deps⟩

/-- Scalar multiple of a loss tensor. -/
def scaleT (c : ℚ) (t : GTensor) : GTensor := ⟨t.data.map (fun x => c * x), t.deps⟩

/-- beta = 1e-3, the adversarial-loss multiplier (train.py line 35). -/
def beta : ℚ := 1 / 1000

/-- lr = 1e-4, the initial learning rate (train.py line 36). -/
def lr0 : ℚ := 1 / 10000

/-- Mutable state of the training session: parameter vectors, gradient
accumulators (`.grad` of each parameter), abstract Adam internal state and
the learning rates of the parameter groups of both optimizers. -/
structure TrainState where
  genP : List ℚ
  discP : List ℚ
  vggP : List ℚ
  genG : List ℚ
  discG : List ℚ
  vggG : List ℚ
  optG : ℚ
  optD : ℚ
  lrG : List ℚ
  lrD : List ℚ
  deriving DecidableEq, Repr

/-- Accumulate the backward contributions into one network's gradient vector:
position `i` (offset by the start index) receives `cb ⟨w, i⟩` exactly when the
loss graph reaches leaf `⟨w, i⟩`. -/
def accumGrad (cb : PId → ℚ) (w : NetId) (deps : List PId) : Nat → List ℚ → List ℚ
  | _, [] => []
  | i, g :: gs =>
      (if (⟨w, i⟩ : PId) ∈ deps then g + cb ⟨w, i⟩ else g) :: accumGrad cb w deps (i + 1) gs

/-- loss.backward(): every parameter leaf reachable from the loss tensor has
its gradient accumulator incremented by the abstract contribution `cb`. -/
def backward (cb : PId → ℚ) (t : GTensor) (st : TrainState) : TrainState :=
  { st with genG := accumGrad cb .gen t.deps 0 st.genG,
            discG := accumGrad cb .disc t.deps 0 st.discG,
            vggG := accumGrad cb .vgg t.deps 0 st.vggG }

/-- optimizer_g.zero_grad(): zeroes the gradients of the generator parameters
only (optimizer_g was built over `generator.parameters()`, train.py line 63). -/
def zeroGradG (st : TrainState) : TrainState :=
  { st with genG := st.genG.map (fun _ => 0) }

/-- optimizer_d.zero_grad(): zeroes the discriminator gradients only. -/
def zeroGradD (st : TrainState) : TrainState :=
  { st with discG := st.discG.map (fun _ => 0) }

/-- Abstract optimizer dynamics and backward contributions.  `updG`/`updD`
map (internal optimizer state, parameter, accumulated gradient) to the new
parameter value; `optStepG`/`optStepD` advance the internal state; `cbGen`
and `cbDisc` are the per-leaf numeric gradient contributions of the
generator-phase and discriminator-phase backward passes. -/
structure Dyn where
  updG : ℚ → ℚ → ℚ → ℚ
  updD : ℚ → ℚ → ℚ → ℚ
  optStepG : ℚ → List ℚ → ℚ
  optStepD : ℚ → List ℚ → ℚ
  cbGen : PId → ℚ
  cbDisc : PId → ℚ

/-- optimizer_g.step(): updates exactly the generator parameters (its only
parameter group) from their accumulated gradients, and its internal state. -/
def stepG (dyn : Dyn) (st : TrainState) : TrainState :=
  { st with genP := List.zipWith (dyn.updG st.optG) st.genP st.genG,
            optG := dyn.optStepG st.optG st.genG }

/-- optimizer_d.step(): updates exactly the discriminator parameters. -/
def stepD (dyn : Dyn) (st : TrainState) : TrainState :=
  { st with discP := List.zipWith (dyn.updD st.optD) st.discP st.discG,
            optD := dyn.optStepD st.optD st.discG }

/-- sr_imgs after normalization (train.py lines 136-139):
`convert_image(generator(lr_imgs), '[-1, 1]', 'imagenet-norm')`. -/
def srImages (N : Nets) (genP : List ℚ) (lrT : GTensor) : GTensor :=
  convertImage N (genForward N genP lrT)

/-- content_loss (train.py lines 142-146): MSE between the VGG features of
the generated images and the detached VGG features of the real images. -/
def contentLossT (N : Nets) (st : TrainState) (lrT hrT : GTensor) : GTensor :=
  mseLossT (vggForward N st.vggP (srImages N st.genP lrT))
    (detach (vggForward N st.vggP hrT))

/-- adversarial_loss of the generator phase (train.py lines 149-151):
BCE-with-logits of the discriminator's logits on the generated images against
`torch.ones_like` targets. -/
def advLossGenT (N : Nets) (st : TrainState) (lrT : GTensor) : GTensor :=
  bceLossT N (discForward N st.discP (srImages N st.genP lrT))
    (onesLike (discForward N st.discP (srImages N st.genP lrT)))

/-- perceptual_loss (train.py line 154): `content_loss + beta * adversarial_loss`. -/
def perceptualLossT (N : Nets) (st : TrainState) (lrT hrT : GTensor) : GTensor :=
  addT (contentLossT N st lrT hrT) (scaleT beta (advLossGenT N st lrT))

/-- Generator phase of one batch (train.py lines 134-161): build the losses,
zero the generator gradients, backpropagate the perceptual loss, step the
generator optimizer.  Returns the new state, the (shared) sr_imgs tensor, and
the content and adversarial loss values recorded by the meters. -/
def genPhaseStep (N : Nets) (dyn : Dyn) (st : TrainState) (lrT hrT : GTensor) :
    TrainState × GTensor × ℚ × ℚ :=
  let sr := srImages N st.genP lrT
  let content := contentLossT N st lrT hrT
  let adv := advLossGenT N st lrT
  let perceptual := addT content (scaleT beta adv)
  let st1 := stepG dyn (backward dyn.cbGen perceptual (zeroGradG st))
  (st1, sr, content.data.headD 0, adv.data.headD 0)

/-- adversarial_loss of the discriminator phase (train.py lines 169-175):
BCE of the logits on the detached generated images against zeros plus BCE of
the logits on the real images against ones. -/
def discLossT (N : Nets) (discP : List ℚ) (sr hrT : GTensor) : GTensor :=
  addT (bceLossT N (discForward N discP (detach sr))
          (zerosLike (discForward N discP (detach sr))))
       (bceLossT N (discForward N discP hrT)
          (onesLike (discForward N discP hrT)))

/-- Discriminator phase of one batch (train.py lines 167-185): build the
discriminator loss on the detached sr_imgs, zero the discriminator gradients,
backpropagate, step the discriminator optimizer.  Returns the new state and
the loss value recorded by the meter. -/
def discPhaseStep (N : Nets) (dyn : Dyn) (st : TrainState) (sr hrT : GTensor) :
    TrainState × ℚ :=
  let advD := discLossT N st.discP sr hrT
  let st1 := stepD dyn (backward dyn.cbDisc advD (zeroGradD st))
  (st1, advD.data.headD 0)

/-- One full batch iteration (train.py lines 128-185): generator phase then
discriminator phase, the sr_imgs tensor flowing from the first into the
second.  Returns the new state and the three recorded loss values
(content, generator-phase adversarial, discriminator-phase adversarial). -/
def batchStep (N : Nets) (dyn : Dyn) (st : TrainState) (lrData hrData : List ℚ) :
    TrainState × ℚ × ℚ × ℚ :=
  let g := genPhaseStep N dyn st ⟨lrData, []⟩ ⟨hrData, []⟩
  let d := discPhaseStep N dyn g.1 g.2.1 ⟨hrData, []⟩
  (d.1, g.2.2.1, g.2.2.2, d.2)

/-- Modelled from the spec: `AverageMeter` is imported from `utils.py`, which
is not among the sources.  Spec section 4.1 gives its contract: `reset()`
clears sum and count to zero, `update(value, weight)` adds `value*weight` to
the sum and `weight` to the count, and `average()` returns `sum/count`, with
`0` as the documented sentinel when the count is zero. -/
structure AverageMeter where
  sum : ℚ
  count : ℚ
  deriving DecidableEq, Repr

/-- reset(): sum and count cleared to zero. -/
def AverageMeter.reset : AverageMeter := ⟨0, 0⟩

/-- update(value, weight): adds value*weight to the sum and weight to the count. -/
def AverageMeter.update (m : AverageMeter) (value weight : ℚ) : AverageMeter :=
  ⟨m.sum + value * weight, m.count + weight⟩

/-- average(): sum/count, with sentinel 0 on an empty accumulator. -/
def AverageMeter.average (m : AverageMeter) : ℚ :=
  if m.count = 0 then 0 else m.sum / m.count

/-- Modelled from the spec: `adjust_learning_rate` is imported from
`utils.py`, which is not among the sources.  Spec section 4.2:
`decay(optimizer_state, factor)` multiplies every parameter group's learning
rate by `factor` in place. -/
def adjust_learning_rate (lrs : List ℚ) (factor : ℚ) : List ℚ :=
  lrs.map (fun x => x * factor)

/-- The string keys appearing in the checkpoint handling of train.py:
the five literals epoch, generator, discriminator, optimizer_g and
optimizer_d, modelled as an enumeration. -/
inductive CkptKey where
  | epoch
  | generator
  | discriminator
  | optimizer_g
  | optimizer_d
  deriving DecidableEq, Repr

/-- A value stored in the checkpoint dictionary: the epoch index, a model
state_dict (its flattened parameter vector) or an optimizer state_dict
(the learning rates of its parameter groups plus its internal state). -/
inductive CkptV where
  | nV (n : Nat)
  | pV (ps : List ℚ)
  | oV (lrs : List ℚ) (inner : ℚ)
  deriving DecidableEq, Repr

/-- A Python dict of checkpoint entries: insertion-ordered association list. -/
abbrev Dict := List (CkptKey × CkptV)

/-- Python dict insertion: replaces the value in place if the key is already
present, appends otherwise. -/
def dinsert (k : CkptKey) (v : CkptV) : Dict → Dict
  | [] => [(k, v)]
  | (k', v') :: rest => if k = k' then (k, v) :: rest else (k', v') :: dinsert k v rest

/-- Evaluation of a Python dict literal: entries inserted left to right, a
duplicated key keeping the later value. -/
def dictOfList (kvs : List (CkptKey × CkptV)) : Dict :=
  kvs.foldl (fun d p => dinsert p.1 p.2 d) []

/-- Python dict lookup. -/
def lookupD (k : CkptKey) : Dict → Option CkptV
  | [] => none
  | (k', v) :: rest => if k = k' then some v else lookupD k rest

/-- The keys of a dict in insertion order. -/
def dictKeys (d : Dict) : List CkptKey := d.map Prod.fst

/-- The dictionary written by `torch.save` at the end of every epoch
(train.py lines 200-206), transcribed entry for entry: the `'optimizer_g'`
key appears twice in the literal, both times with the generator optimizer's
state_dict, and no `'optimizer_d'` entry is ever written. -/
def torchSaveRecord (epoch : Nat) (st : TrainState) : Dict :=
  dictOfList [(.epoch, .nV epoch),
              (.generator, .pV st.genP),
              (.discriminator, .pV st.discP),
              (.optimizer_g, .oV st.lrG st.optG),
              (.optimizer_g, .oV st.lrG st.optG)]

/-- The resume block (train.py lines 85-91): read epoch, generator,
discriminator, optimizer_g and optimizer_d from the checkpoint dict and
install them; a missing key (Python KeyError) or an entry of the wrong kind
(load_state_dict failure) aborts startup, modelled as `none`.  On success
`start_epoch` becomes the saved epoch plus one. -/
def resumeFrom (st : TrainState) (d : Dict) : Option (Nat × TrainState) :=
  match lookupD .epoch d, lookupD .generator d, lookupD .discriminator d,
        lookupD .optimizer_g d, lookupD .optimizer_d d with
  | some (.nV e), some (.pV g), some (.pV dc), some (.oV lg og), some (.oV ld od) =>
      some (e + 1, { st with genP := g, discP := dc,
                             lrG := lg, optG := og, lrD := ld, optD := od })
  | _, _, _, _, _ => none

/-- Startup initialization (train.py lines 81-91): the pretrained SRResNet
weights are loaded into the generator's `net` sub-module unconditionally;
then, if a resume checkpoint is configured, the full checkpoint state is
loaded on top of it.  The Generator module wraps the SRResNet as its `net`
sub-module, so the sub-module load installs the whole generator parameter
vector.  Returns `(start_epoch, state)`; a failing resume load aborts. -/
def startup (srres : List ℚ) (resume : Option Dict) (st0 : TrainState) :
    Option (Nat × TrainState) :=
  let st1 := { st0 with genP := srres }
  match resume with
  | none => some (1, st1)
  | some d => resumeFrom st1 d

/-- The three per-epoch loss meters (train.py lines 123-125). -/
structure Meters where
  mc : AverageMeter
  ma : AverageMeter
  md : AverageMeter
  deriving DecidableEq, Repr

/-- Fresh meters constructed at the start of every epoch. -/
def Meters.fresh : Meters := ⟨.reset, .reset, .reset⟩

/-- DataLoader batching (train.py lines 104-108): the dataset split into
consecutive chunks of at most `bs` items (`drop_last` defaults to false, so a
short final chunk is kept). -/
def chunkAux {α : Type} (bs : Nat) : Nat → List α → List (List α)
  | 0, _ => []
  | _, [] => []
  | fuel + 1, x :: rest => ((x :: rest).take bs) :: chunkAux bs fuel ((x :: rest).drop bs)

/-- The chunking itself, with fuel equal to the list length: when `0 < bs`
every chunk consumes at least one element, so the fuel never runs out. -/
def chunkList {α : Type} (bs : Nat) (xs : List α) : List (List α) :=
  if bs = 0 then [] else chunkAux bs xs.length xs

/-- Collate one chunk of (lr, hr) image pairs into a batch: concatenated lr
data, concatenated hr data, and the batch-dimension size `size(0)`. -/
def batchOf (chunk : List (List ℚ × List ℚ)) : List ℚ × List ℚ × Nat :=
  ((chunk.map Prod.fst).flatten, (chunk.map Prod.snd).flatten, chunk.length)

/-- One batch of the inner loop together with the meter updates
(train.py lines 128-185): the meters record the content and generator-phase
adversarial losses weighted by `lr_imgs.size(0)` and the discriminator loss
weighted by `hr_imgs.size(0)`; both equal the chunk's item count. -/
def runBatch (N : Nets) (dyn : Dyn) (p : TrainState × Meters)
    (b : List ℚ × List ℚ × Nat) : TrainState × Meters :=
  let r := batchStep N dyn p.1 b.1 b.2.1
  (r.1, ⟨p.2.mc.update r.2.1 (b.2.2 : ℚ),
         p.2.ma.update r.2.2.1 (b.2.2 : ℚ),
         p.2.md.update r.2.2.2 (b.2.2 : ℚ)⟩)

/-- Observable log of a training run. -/
structure RunAcc where
  st : TrainState
  stepsG : Nat
  stepsD : Nat
  nBatches : Nat
  decays : Nat
  epochsRun : List Nat
  lastCkpt : Option Dict
  meters : Meters
  crashed : Bool
  deriving DecidableEq, Repr

/-- One epoch of the outer loop (train.py lines 114-206).  In order: the
learning-rate decay fires when the epoch equals `int(epochs / 2)`; fresh
meters; the batch loop; the end-of-epoch `del` of the loop-local tensors,
which raises a NameError when the epoch processed no batch (crashing the
run); otherwise the rolling checkpoint is overwritten with this epoch's
state.  A crashed run skips all remaining epochs. -/
def runEpoch (N : Nets) (dyn : Dyn) (epochs : Nat)
    (batches : List (List ℚ × List ℚ × Nat)) (acc : RunAcc) (epoch : Nat) : RunAcc :=
  if acc.crashed then acc else
  let fired := epoch = epochs / 2
  let st0 := if fired then
      { acc.st with lrG := adjust_learning_rate acc.st.lrG (1 / 10),
                    lrD := adjust_learning_rate acc.st.lrD (1 / 10) }
    else acc.st
  let p := batches.foldl (runBatch N dyn) (st0, Meters.fresh)
  let acc' : RunAcc :=
    { st := p.1,
      stepsG := acc.stepsG + batches.length,
      stepsD := acc.stepsD + batches.length,
      nBatches := acc.nBatches + batches.length,
      decays := acc.decays + (if fired then 1 else 0),
      epochsRun := acc.epochsRun ++ [epoch],
      lastCkpt := acc.lastCkpt,
      meters := p.2,
      crashed := acc.crashed }
  if batches.isEmpty then { acc' with crashed := true }
  else { acc' with lastCkpt := some (torchSaveRecord epoch p.1) }

/-- Initial run log. -/
def initAcc (st0 : TrainState) : RunAcc :=
  { st := st0, stepsG := 0, stepsD := 0, nBatches := 0, decays := 0,
    epochsRun := [], lastCkpt := none, meters := Meters.fresh, crashed := false }

/-- The whole training loop (train.py lines 114-206): epochs
`start_epoch, ..., epochs` in order (`range(start_epoch, epochs + 1)`),
each running the batched dataset through `runEpoch`. -/
def runTraining (N : Nets) (dyn : Dyn) (startEpoch epochs : Nat)
    (dataset : List (List ℚ × List ℚ)) (bs : Nat) (st0 : TrainState) : RunAcc :=
  let batches := (chunkList bs dataset).map batchOf
  (List.range' startEpoch (epochs + 1 - startEpoch)).foldl
    (runEpoch N dyn epochs batches) (initAcc st0)

/-- A sequence of `update(value, weight)` calls applied to a meter. -/
def applyUpdates (m : AverageMeter) (us : List (ℚ × ℚ)) : AverageMeter :=
  us.foldl (fun acc p => acc.update p.1 p.2) m

/-- A concrete instantiation of the external collaborators, used to evaluate
the loop on closed inputs: identity forwards and a squared-difference
pointwise classification loss. -/
def N0 : Nets :=
  { genF := fun _ x => x, discF := fun _ x => x, vggF := fun _ x => x,
    conv := fun x => x, bce := fun l t => (l - t) ^ 2 }

/-- A concrete instantiation of the optimizer dynamics: plain gradient
descent with unit backward contributions. -/
def dyn0 : Dyn :=
  { updG := fun _ p g => p - g, updD := fun _ p g => p - g,
    optStepG := fun o _ => o, optStepD := fun o _ => o,
    cbGen := fun _ => 1, cbDisc := fun _ => 1 }

/-- A concrete one-parameter-per-network training state. -/
def st_ex : TrainState :=
  { genP := [0], discP := [0], vggP := [0], genG := [0], discG := [0], vggG := [0],
    optG := 0, optD := 0, lrG := [lr0], lrD := [lr0] }

/-- The toy dataset of the end-to-end scenario: 4 image pairs. -/
def ds4 : List (List ℚ × List ℚ) := [([1], [1]), ([2], [2]), ([3], [3]), ([4], [4])]

/-- A one-pair dataset. -/
def ds1 : List (List ℚ × List ℚ) := [([1], [1])]

/-- A well-formed resume checkpoint recording epoch 139 with all five keys
present (as an external tool, or a fixed version of the trainer, would have
written it). -/
def wfDict139 : Dict :=
  dictOfList [(.epoch, .nV 139), (.generator, .pV [2]), (.discriminator, .pV [3]),
              (.optimizer_g, .oV [lr0] 0), (.optimizer_d, .oV [lr0] 0)]

/-- The state produced by resuming `st_ex` from `wfDict139`. -/
def stResumed : TrainState :=
  { st_ex with genP := [2], discP := [3], lrG := [lr0], optG := 0, lrD := [lr0], optD := 0 }

/-- Every leaf listed by `pids w n` belongs to network `w`. -/
lemma pids_net {p : PId} {w : NetId} {n : Nat} (h : p ∈ pids w n) : p.net = w := by
  rcases List.mem_map.mp h with ⟨i, _, rfl⟩
  rfl

/-- A backward pass leaves a network's gradient vector untouched when the
loss graph reaches none of that network's leaves. -/
lemma accumGrad_not_mem {cb : PId → ℚ} {w : NetId} {deps : List PId}
    (h : ∀ p ∈ deps, p.net ≠ w) : ∀ (i : Nat) (g : List ℚ), accumGrad cb w deps i g = g := by
  intro i g
  induction g generalizing i with
  | nil => rfl
  | cons x xs ih =>
      simp only [accumGrad, ih]
      rw [if_neg]
      intro hmem
      exact h ⟨w, i⟩ hmem rfl

/-- accumGrad preserves the length of the gradient vector. -/
lemma accumGrad_length (cb : PId → ℚ) (w : NetId) (deps : List PId) :
    ∀ (i : Nat) (g : List ℚ), (accumGrad cb w deps i g).length = g.length := by
  intro i g
  induction g generalizing i with
  | nil => rfl
  | cons x xs ih => simp [accumGrad, ih]

/-- Every leaf reached by the discriminator-phase loss belongs to the
discriminator: the generated images enter it only detached, and the real
images are untracked data. -/
lemma discLossT_deps_disc (N : Nets) (dp : List ℚ) (sr : GTensor) (hr : List ℚ) :
    ∀ p ∈ (discLossT N dp sr ⟨hr, []⟩).deps, p.net = .disc := by
  intro p hp
  simp only [discLossT, addT, bceLossT, discForward, detach, zerosLike, onesLike,
    List.append_nil, List.mem_append] at hp
  rcases hp with h | h
  · exact pids_net h
  · exact pids_net h

/-- Closed form of the discriminator parameters after one full batch: the
update consumes only the discriminator-phase loss contributions applied to a
zeroed gradient accumulator, the pre-batch discriminator parameters and the
pre-batch discriminator optimizer state. -/
lemma batch_discP_closed (N : Nets) (dyn : Dyn) (st : TrainState) (lr hr : List ℚ) :
    (batchStep N dyn st lr hr).1.discP
      = List.zipWith (dyn.updD st.optD) st.discP
          (accumGrad dyn.cbDisc .disc
            (discLossT N st.discP (srImages N st.genP ⟨lr, []⟩) ⟨hr, []⟩).deps 0
            (List.replicate st.discG.length 0)) := by
  show List.zipWith _ _ (accumGrad _ _ _ 0 (List.map _ (accumGrad _ _ _ 0 _))) = _
  rw [List.map_const', accumGrad_length]
  exact rfl

/-- A non-crashed epoch over a nonempty batch list: the run stays live, the
epoch is recorded once, the decay counter grows exactly when the epoch is
`int(epochs / 2)`, and both optimizers step once per batch. -/
lemma runEpoch_stats (N : Nets) (dyn : Dyn) (epochs : Nat)
    (batches : List (List ℚ × List ℚ × Nat)) (hb : batches ≠ [])
    (acc : RunAcc) (hc : acc.crashed = false) (e : Nat) :
    (runEpoch N dyn epochs batches acc e).crashed = false
  ∧ (runEpoch N dyn epochs batches acc e).epochsRun = acc.epochsRun ++ [e]
  ∧ (runEpoch N dyn epochs batches acc e).decays
      = acc.decays + (if e = epochs / 2 then 1 else 0)
  ∧ (runEpoch N dyn epochs batches acc e).stepsG = acc.stepsG + batches.length
  ∧ (runEpoch N dyn epochs batches acc e).stepsD = acc.stepsD + batches.length
  ∧ (runEpoch N dyn epochs batches acc e).nBatches = acc.nBatches + batches.length := by
  have hb' : batches.isEmpty = false := by
    rw [List.isEmpty_eq_false]
    exact hb
  unfold runEpoch
  rw [hc]
  simp only [Bool.false_eq_true, if_false, hb', hc]
  exact ⟨trivial, trivial, trivial, trivial, trivial, trivial⟩

/-- Folding a run over a list of epochs with nonempty batches: no crash, the
epochs are appended in order, the decay counter counts the occurrences of
the trigger epoch, and the step counters grow by one per batch per epoch. -/
lemma foldl_runEpoch_stats (N : Nets) (dyn : Dyn) (epochs : Nat)
    (batches : List (List ℚ × List ℚ × Nat)) (hb : batches ≠ []) (es : List Nat) :
    ∀ (acc : RunAcc), acc.crashed = false →
    (es.foldl (runEpoch N dyn epochs batches) acc).crashed = false
  ∧ (es.foldl (runEpoch N dyn epochs batches) acc).epochsRun = acc.epochsRun ++ es
  ∧ (es.foldl (runEpoch N dyn epochs batches) acc).decays
      = acc.decays + es.count (epochs / 2)
  ∧ (es.foldl (runEpoch N dyn epochs batches) acc).stepsG
      = acc.stepsG + batches.length * es.length
  ∧ (es.foldl (runEpoch N dyn epochs batches) acc).stepsD
      = acc.stepsD + batches.length * es.length
  ∧ (es.foldl (runEpoch N dyn epochs batches) acc).nBatches
      = acc.nBatches + batches.length * es.length := by
  induction es with
  | nil => intro acc hc; simp [hc]
  | cons e es ih =>
      intro acc hc
      obtain ⟨h1, h2, h3, h4, h5, h6⟩ := runEpoch_stats N dyn epochs batches hb acc hc e
      obtain ⟨g1, g2, g3, g4, g5, g6⟩ := ih (runEpoch N dyn epochs batches acc e) h1
      rw [List.foldl_cons]
      refine ⟨g1, ?_, ?_, ?_, ?_, ?_⟩
      · rw [g2, h2, List.append_assoc]
        rfl
      · rw [g3, h3, List.count_cons]
        by_cases h : e = epochs / 2
        · simp only [h, if_true, beq_self_eq_true]
          omega
        · simp only [h, if_false]
          have hbeq : (e == epochs / 2) = false := by
            simp [h]
          rw [hbeq]
          simp
      · rw [g4, h4, List.length_cons]
        ring
      · rw [g5, h5, List.length_cons]
        ring
      · rw [g6, h6, List.length_cons]
        ring

/-- The epoch range `range(start, epochs + 1)` visits a value exactly once
when it lies between the bounds, never otherwise. -/
lemma count_range' (k s n : Nat) :
    (List.range' s n).count k = if s ≤ k ∧ k < s + n then 1 else 0 := by
  induction n generalizing s with
  | zero =>
      have h0 : ¬(s ≤ k ∧ k < s) := by omega
      simp [h0]
  | succ n ih =>
      rw [List.range'_succ, List.count_cons, ih (s + 1)]
      by_cases h : k = s
      · subst h
        have h1 : ¬(k + 1 ≤ k ∧ k < k + 1 + n) := by omega
        have h2 : k ≤ k ∧ k < k + (n + 1) := by omega
        simp [h1, h2]
      · have hbeq : (s == k) = false := by
          simp [Ne.symm h]
        rw [hbeq]
        simp only [Bool.false_eq_true, if_false]
        split_ifs with h1 h2 h2 <;> omega

/-- A nonempty dataset with a positive batch size yields a nonempty chunk
list. -/
lemma chunkList_ne_nil {α : Type} (bs : Nat) (xs : List α) (hbs : 0 < bs)
    (hxs : xs ≠ []) : chunkList bs xs ≠ [] := by
  unfold chunkList
  rw [if_neg (Nat.pos_iff_ne_zero.mp hbs)]
  cases xs with
  | nil => exact absurd rfl hxs
  | cons x rest =>
      rw [List.length_cons]
      exact fun h => List.noConfusion h

/-- A nonempty dataset with a positive batch size yields a nonempty batch
list. -/
lemma batches_ne_nil (bs : Nat) (ds : List (List ℚ × List ℚ)) (hbs : 0 < bs)
    (hds : ds ≠ []) : (chunkList bs ds).map batchOf ≠ [] := by
  intro hc
  exact chunkList_ne_nil bs ds hbs hds (by simpa using hc)

/-- Running sum and count of a meter under a sequence of updates. -/
lemma applyUpdates_sum_count (us : List (ℚ × ℚ)) :
    ∀ m : AverageMeter,
      (applyUpdates m us).sum = m.sum + (us.map (fun p => p.1 * p.2)).sum
    ∧ (applyUpdates m us).count = m.count + (us.map Prod.snd).sum := by
  induction us with
  | nil => intro m; simp [applyUpdates]
  | cons p ps ih =>
      intro m
      obtain ⟨h1, h2⟩ := ih (m.update p.1 p.2)
      constructor
      · show (applyUpdates (m.update p.1 p.2) ps).sum = _
        rw [h1]
        show m.sum + p.1 * p.2 + _ = _
        simp only [List.map_cons, List.sum_cons]
        ring
      · show (applyUpdates (m.update p.1 p.2) ps).count = _
        rw [h2]
        show m.count + p.2 + _ = _
        simp only [List.map_cons, List.sum_cons]
        ring

/-- C1: checkpoint round-trip fails on the code.  The record saved at any
epoch boundary lacks the `'optimizer_d'` key (the dict literal of
`torch.save` writes `'optimizer_g'` twice instead), so the resume block of
train.py lines 85-91 — which reads `checkpoint['optimizer_d']` — fails with
a KeyError on every checkpoint this trainer produces, for every state the
loader starts from, instead of restoring the four component states and
setting the start epoch to the saved epoch plus one. -/
theorem c1_checkpoint_roundtrip_fails (e : Nat) (st st' : TrainState) :
    resumeFrom st' (torchSaveRecord e st) = none := rfl

/-- C2: cross-phase parameter isolation.  For every batch, the
discriminator-phase backward pass and optimizer step leave every generator
parameter (and, the synthetic images being detached, every generator
gradient) unchanged; and the generator-phase backward pass and optimizer
step leave the discriminator parameters and discriminator optimizer state
unchanged even though every discriminator parameter leaf participates in
the generator-phase loss graph. -/
theorem c2_cross_phase_isolation (N : Nets) (dyn : Dyn) (st : TrainState) (lr hr : List ℚ) :
    (discPhaseStep N dyn (genPhaseStep N dyn st ⟨lr, []⟩ ⟨hr, []⟩).1
        (genPhaseStep N dyn st ⟨lr, []⟩ ⟨hr, []⟩).2.1 ⟨hr, []⟩).1.genP
      = (genPhaseStep N dyn st ⟨lr, []⟩ ⟨hr, []⟩).1.genP
  ∧ (discPhaseStep N dyn (genPhaseStep N dyn st ⟨lr, []⟩ ⟨hr, []⟩).1
        (genPhaseStep N dyn st ⟨lr, []⟩ ⟨hr, []⟩).2.1 ⟨hr, []⟩).1.genG
      = (genPhaseStep N dyn st ⟨lr, []⟩ ⟨hr, []⟩).1.genG
  ∧ (genPhaseStep N dyn st ⟨lr, []⟩ ⟨hr, []⟩).1.discP = st.discP
  ∧ (genPhaseStep N dyn st ⟨lr, []⟩ ⟨hr, []⟩).1.optD = st.optD
  ∧ pids .disc st.discP.length ⊆ (perceptualLossT N st ⟨lr, []⟩ ⟨hr, []⟩).deps := by
  refine ⟨rfl, ?_, rfl, rfl, ?_⟩
  · show accumGrad dyn.cbDisc .gen _ 0 _ = _
    exact accumGrad_not_mem
      (fun p hp hg => by
        have := discLossT_deps_disc N (genPhaseStep N dyn st ⟨lr, []⟩ ⟨hr, []⟩).1.discP
          (genPhaseStep N dyn st ⟨lr, []⟩ ⟨hr, []⟩).2.1 hr p hp
        rw [hg] at this
        exact NetId.noConfusion this) 0 _
  · intro p hp
    simp only [perceptualLossT, contentLossT, advLossGenT, scaleT, addT, mseLossT,
      bceLossT, discForward, onesLike, vggForward, srImages, convertImage, genForward,
      detach, List.append_nil, List.mem_append]
    right
    left
    exact hp

/-- C3: label polarity.  For every batch, the generator-phase adversarial
loss recorded by the loop equals BCE-with-logits of the discriminator's
logits on the generated images against an all-ones target, and the
discriminator-phase loss equals BCE-with-logits of the logits on the
(detached) generated images against all-zeros plus BCE-with-logits of the
logits on the real images against all-ones, the discriminator parameters
being those entering the batch. -/
theorem c3_label_polarity (N : Nets) (dyn : Dyn) (st : TrainState) (lr hr : List ℚ) :
    (batchStep N dyn st lr hr).2.2.1
      = bceWithLogitsMean N (N.discF st.discP (N.conv (N.genF st.genP lr)))
          (List.replicate (N.discF st.discP (N.conv (N.genF st.genP lr))).length 1)
  ∧ (batchStep N dyn st lr hr).2.2.2
      = bceWithLogitsMean N (N.discF st.discP (N.conv (N.genF st.genP lr)))
          (List.replicate (N.discF st.discP (N.conv (N.genF st.genP lr))).length 0)
        + bceWithLogitsMean N (N.discF st.discP hr)
            (List.replicate (N.discF st.discP hr).length 1) :=
  ⟨rfl, rfl⟩

/-- C4: generator objective composition.  The generator-phase update is the
backward-then-step of exactly the perceptual loss tensor; its value is the
content loss plus beta times the adversarial loss, the content loss being
the MSE between the feature-extractor outputs on the re-normalized generated
images and on the real images; the real-image features are detached (they
reach no parameter leaf, so the content loss reaches only the generated
path's leaves), and the feature extractor's parameters receive no update
from the whole batch. -/
theorem c4_generator_objective (N : Nets) (dyn : Dyn) (st : TrainState) (lr hr : List ℚ) :
    (genPhaseStep N dyn st ⟨lr, []⟩ ⟨hr, []⟩).1
      = stepG dyn (backward dyn.cbGen (perceptualLossT N st ⟨lr, []⟩ ⟨hr, []⟩) (zeroGradG st))
  ∧ (perceptualLossT N st ⟨lr, []⟩ ⟨hr, []⟩).data
      = [mseVal (N.vggF st.vggP (N.conv (N.genF st.genP lr))) (N.vggF st.vggP hr)
          + beta * bceWithLogitsMean N (N.discF st.discP (N.conv (N.genF st.genP lr)))
              (List.replicate (N.discF st.discP (N.conv (N.genF st.genP lr))).length 1)]
  ∧ (detach (vggForward N st.vggP ⟨hr, []⟩)).deps = []
  ∧ (contentLossT N st ⟨lr, []⟩ ⟨hr, []⟩).deps
      = (vggForward N st.vggP (srImages N st.genP ⟨lr, []⟩)).deps ++ []
  ∧ (batchStep N dyn st lr hr).1.vggP = st.vggP :=
  ⟨rfl, rfl, rfl, rfl, rfl⟩

/-- C5: checkpoint record incompleteness.  The record written at the end of
an epoch holds exactly the keys epoch, generator, discriminator and
optimizer_g; the discriminator optimizer state is saved under no key at all
(optimizer_d is absent), the duplicated optimizer_g literal entry leaving
the generator optimizer's state under that key. -/
theorem c5_checkpoint_record_incomplete (e : Nat) (st : TrainState) :
    dictKeys (torchSaveRecord e st)
      = [CkptKey.epoch, CkptKey.generator, CkptKey.discriminator, CkptKey.optimizer_g]
  ∧ lookupD .optimizer_d (torchSaveRecord e st) = none
  ∧ lookupD .optimizer_g (torchSaveRecord e st) = some (.oV st.lrG st.optG)
  ∧ lookupD .epoch (torchSaveRecord e st) = some (.nV e)
  ∧ lookupD .generator (torchSaveRecord e st) = some (.pV st.genP)
  ∧ lookupD .discriminator (torchSaveRecord e st) = some (.pV st.discP) :=
  ⟨rfl, rfl, rfl, rfl, rfl, rfl⟩

/-- C6 (amended): within one run the decay fires only at epoch
`int(epochs / 2)`, hence exactly once when the start epoch does not exceed
that midpoint (as on the configured fresh run with start epoch 1 and 150
epochs) and zero times when a resumed run starts past it; each application
multiplies every parameter group's learning rate by 0.1, and applying it
twice yields 0.01 times the original. -/
theorem c6_decay_amended (N : Nets) (dyn : Dyn) (startEpoch epochs bs : Nat)
    (ds : List (List ℚ × List ℚ)) (st0 : TrainState)
    (hds : ds ≠ []) (hbs : 0 < bs) :
    (runTraining N dyn startEpoch epochs ds bs st0).decays
      = (if startEpoch ≤ epochs / 2 then 1 else 0)
  ∧ (∀ lrs : List ℚ,
      adjust_learning_rate lrs (1 / 10) = lrs.map (fun x => x * (1 / 10))
      ∧ adjust_learning_rate (adjust_learning_rate lrs (1 / 10)) (1 / 10)
          = lrs.map (fun x => x * (1 / 100))) := by
  constructor
  · have hb := batches_ne_nil bs ds hbs hds
    obtain ⟨-, -, h3, -, -, -⟩ := foldl_runEpoch_stats N dyn epochs
      ((chunkList bs ds).map batchOf)
      hb (List.range' startEpoch (epochs + 1 - startEpoch)) (initAcc st0) rfl
    simp only [runTraining]
    rw [h3, count_range']
    have hd2 : epochs / 2 ≤ epochs := Nat.div_le_self epochs 2
    have hinit : (initAcc st0).decays = 0 := rfl
    rw [hinit]
    split_ifs with h1 h2 h2 <;> omega
  · intro lrs
    refine ⟨rfl, ?_⟩
    show List.map _ (List.map _ _) = _
    rw [List.map_map]
    congr 1
    funext x
    show x * (1 / 10) * (1 / 10) = x * (1 / 100)
    ring

/-- C6 counterexample: a run resumed from a checkpoint recording epoch 139
(so start epoch 140) over the configured 150 epochs invokes the decay zero
times, not exactly once — the claim as stated fails for this training run. -/
theorem c6_decay_counterexample :
    (startup [5] (some wfDict139) st_ex).map (fun r => r.1) = some 140
  ∧ (runTraining N0 dyn0 140 150 ds1 2 st_ex).decays = 0
  ∧ ¬((runTraining N0 dyn0 140 150 ds1 2 st_ex).decays = 1) :=
  ⟨by decide, by decide, by decide⟩

/-- C6 witness: the amended statement instantiated on a fresh default-style
run, start epoch 1 over 150 epochs, where the decay fires exactly once. -/
theorem c6_decay_amended_witness :
    ds1 ≠ [] ∧ 0 < 2
  ∧ (runTraining N0 dyn0 1 150 ds1 2 st_ex).decays = (if 1 ≤ 150 / 2 then 1 else 0) :=
  ⟨by decide, by decide,
    (c6_decay_amended N0 dyn0 1 150 2 ds1 st_ex (by decide) (by decide)).1⟩

/-- C7: metric accumulator correctness (modelled from the spec, `utils.py`
being absent from the sources).  After a reset, a nonempty sequence of
updates with positive weights yields the weighted arithmetic mean; a reset
meter has zero sum and count, and its average is the documented sentinel 0. -/
theorem c7_average_meter (us : List (ℚ × ℚ)) (hne : us ≠ [])
    (hpos : ∀ p ∈ us, 0 < p.2) :
    (applyUpdates AverageMeter.reset us).average
      = (us.map (fun p => p.1 * p.2)).sum / (us.map Prod.snd).sum
  ∧ AverageMeter.reset.sum = 0
  ∧ AverageMeter.reset.count = 0
  ∧ AverageMeter.reset.average = 0 := by
  refine ⟨?_, rfl, rfl, rfl⟩
  have hcount : 0 < (us.map Prod.snd).sum := by
    apply List.sum_pos
    · intro x hx
      rcases List.mem_map.mp hx with ⟨p, hp, rfl⟩
      exact hpos p hp
    · intro hc
      exact hne (List.map_eq_nil_iff.mp hc)
  have hm := applyUpdates_sum_count us AverageMeter.reset
  unfold AverageMeter.average
  rw [hm.1, hm.2]
  have hzc : AverageMeter.reset.count = 0 := rfl
  have hzs : AverageMeter.reset.sum = 0 := rfl
  rw [hzc, hzs, zero_add, zero_add, if_neg (ne_of_gt hcount)]

/-- C7 witness: two updates of values 3 and 5 with unit weights average to
their weighted mean. -/
theorem c7_average_meter_witness :
    ([((3 : ℚ), (1 : ℚ)), (5, 1)] ≠ ([] : List (ℚ × ℚ)))
  ∧ (∀ p ∈ [((3 : ℚ), (1 : ℚ)), (5, 1)], 0 < p.2)
  ∧ (applyUpdates AverageMeter.reset [((3 : ℚ), (1 : ℚ)), (5, 1)]).average
      = ([((3 : ℚ), (1 : ℚ)), (5, 1)].map (fun p => p.1 * p.2)).sum
          / ([((3 : ℚ), (1 : ℚ)), (5, 1)].map Prod.snd).sum :=
  ⟨by decide, by decide, (c7_average_meter [(3, 1), (5, 1)] (by decide) (by decide)).1⟩

/-- C8: loop counting and termination.  The epoch loop visits exactly the
epochs from the start epoch through the configured total, in order, each
once; and on the toy scenario (4 image pairs, batch size 2, 1 epoch) exactly
2 batches are processed, each optimizer steps exactly twice, the single
epoch runs once, and the produced rolling checkpoint records epoch 1. -/
theorem c8_loop_counting (N : Nets) (dyn : Dyn) (startEpoch epochs bs : Nat)
    (ds : List (List ℚ × List ℚ)) (st0 st1 : TrainState)
    (hds : ds ≠ []) (hbs : 0 < bs) :
    (runTraining N dyn startEpoch epochs ds bs st0).epochsRun
      = List.range' startEpoch (epochs + 1 - startEpoch)
  ∧ (runTraining N dyn 1 1 ds4 2 st1).nBatches = 2
  ∧ (runTraining N dyn 1 1 ds4 2 st1).stepsG = 2
  ∧ (runTraining N dyn 1 1 ds4 2 st1).stepsD = 2
  ∧ (runTraining N dyn 1 1 ds4 2 st1).epochsRun = [1]
  ∧ (∃ stf : TrainState,
      (runTraining N dyn 1 1 ds4 2 st1).lastCkpt = some (torchSaveRecord 1 stf)
      ∧ lookupD .epoch (torchSaveRecord 1 stf) = some (.nV 1)) := by
  refine ⟨?_, rfl, rfl, rfl, rfl, ?_⟩
  · have hb := batches_ne_nil bs ds hbs hds
    obtain ⟨-, h2, -, -, -, -⟩ := foldl_runEpoch_stats N dyn epochs
      ((chunkList bs ds).map batchOf)
      hb (List.range' startEpoch (epochs + 1 - startEpoch)) (initAcc st0) rfl
    simp only [runTraining]
    rw [h2]
    rfl
  · exact ⟨(List.foldl (runBatch N dyn) (st1, Meters.fresh)
      ((chunkList 2 ds4).map batchOf)).1, rfl, rfl⟩

/-- C8 witness: the loop statement instantiated on a concrete short resumed
run, epochs 3 through 5. -/
theorem c8_loop_counting_witness :
    ds4 ≠ [] ∧ 0 < 2
  ∧ (runTraining N0 dyn0 3 5 ds4 2 st_ex).epochsRun = List.range' 3 (5 + 1 - 3) :=
  ⟨by decide, by decide,
    (c8_loop_counting N0 dyn0 3 5 2 ds4 st_ex st_ex (by decide) (by decide)).1⟩

/-- C9: the discriminator gradients accumulated during the generator phase
are discarded by `optimizer_d.zero_grad()`, so the discriminator parameter
update is a function only of the discriminator-phase loss contributions of
the same batch applied to a zeroed gradient accumulator; in particular the
updated discriminator parameters do not depend on the generator-phase
backward contributions at all. -/
theorem c9_disc_update_from_disc_loss_only (N : Nets) (dyn : Dyn) (st : TrainState)
    (lr hr : List ℚ) :
    (batchStep N dyn st lr hr).1.discP
      = List.zipWith (dyn.updD st.optD) st.discP
          (accumGrad dyn.cbDisc .disc
            (discLossT N st.discP (srImages N st.genP ⟨lr, []⟩) ⟨hr, []⟩).deps 0
            (List.replicate st.discG.length 0))
  ∧ ∀ cb : PId → ℚ,
      (batchStep N { dyn with cbGen := cb } st lr hr).1.discP
        = (batchStep N dyn st lr hr).1.discP := by
  constructor
  · exact batch_discP_closed N dyn st lr hr
  · intro cb
    rw [batch_discP_closed N { dyn with cbGen := cb } st lr hr,
      batch_discP_closed N dyn st lr hr]

/-- C10: resume overrides the pretrained initialization.  Whenever startup
with a configured resume checkpoint succeeds, the resulting generator
parameters equal the checkpoint's generator entry and the start epoch is
the checkpoint's epoch plus one, and the outcome is identical for any other
pretrained SRResNet weight vector; on a fresh run the generator starts from
the SRResNet weights. -/
theorem c10_resume_overrides_pretrained (srres srres' : List ℚ) (d : Dict)
    (st0 : TrainState) (s : Nat) (st' : TrainState)
    (h : startup srres (some d) st0 = some (s, st')) :
    (∃ g, lookupD .generator d = some (.pV g) ∧ st'.genP = g)
  ∧ startup srres' (some d) st0 = some (s, st')
  ∧ (∃ e, lookupD .epoch d = some (.nV e) ∧ s = e + 1)
  ∧ startup srres none st0 = some (1, { st0 with genP := srres }) := by
  have h2 : resumeFrom { st0 with genP := srres } d = some (s, st') := h
  unfold resumeFrom at h2
  split at h2
  · rename_i e g dc lg og ld od heq1 heq2 heq3 heq4 heq5
    simp only [Option.some.injEq, Prod.mk.injEq] at h2
    obtain ⟨hs, hst⟩ := h2
    subst hs
    subst hst
    refine ⟨⟨g, heq2, rfl⟩, ?_, ⟨e, heq1, rfl⟩, rfl⟩
    show resumeFrom { st0 with genP := srres' } d = _
    unfold resumeFrom
    rw [heq1, heq2, heq3, heq4, heq5]
  · exact absurd h2 (by simp)

/-- C10 witness: startup from the well-formed epoch-139 checkpoint installs
the checkpoint's generator vector whatever the SRResNet weights are, and
resumes at epoch 140. -/
theorem c10_resume_witness :
    startup [9] (some wfDict139) st_ex = some (140, stResumed)
  ∧ ((∃ g, lookupD .generator wfDict139 = some (.pV g) ∧ stResumed.genP = g)
     ∧ startup [7] (some wfDict139) st_ex = some (140, stResumed)
     ∧ (∃ e, lookupD .epoch wfDict139 = some (.nV e) ∧ 140 = e + 1)
     ∧ startup [9] none st_ex = some (1, { st_ex with genP := [9] })) :=
  ⟨rfl,
    c10_resume_overrides_pretrained [9] [7] wfDict139 st_ex 140 stResumed rfl⟩

end SRGAN
